import Mathlib

/-!
Verification of `backend/services/outline.py` (RedInk).

The module's text processing is embedded over `List Char`:

* `strip` models Python `str.strip()` (ASCII whitespace subset);
* `containsSub` models Python's case-sensitive `in` substring test;
* `splitD` models leftmost non-overlapping splitting at a fixed-width
  delimiter, instantiated for `str.split("---")` and
  `re.split(r'<page>', ..., flags=re.IGNORECASE)`;
* `tagToken` models the capture group of `re.match(r"\[(\S+)\]", s)`;
* `parse_outline` models `OutlineService._parse_outline`;
* `load_text_config`, `activeEntry`, `resolvedModel` / `resolvedTemperature`
  / `resolvedMaxTokens` model the configuration handling;
* `generate_outline` models `OutlineService.generate_outline`, with the
  external text-generation client passed in as a function parameter.
-/

namespace RedInk

/-- Characters treated as whitespace by Python's `str.strip()` and by the
regex class `\s` (ASCII subset; the exotic Unicode space characters play no
role in any claim). -/
def isPySpace (c : Char) : Bool :=
  c = ' ' || c = '\t' || c = '\n' || c = '\r' || c = '\x0b' || c = '\x0c'

/-- Python `str.strip()` with no arguments: drop whitespace from both ends. -/
def strip (l : List Char) : List Char :=
  ((l.dropWhile isPySpace).reverse.dropWhile isPySpace).reverse

/-- ASCII lowercasing, as `re.IGNORECASE` applies to an ASCII literal pattern. -/
def lowerAscii (c : Char) : Char :=
  if 'A' ≤ c ∧ c ≤ 'Z' then Char.ofNat (c.toNat + 32) else c

/-- Python's case-sensitive substring containment `pat in text`. -/
def containsSub (pat : List Char) : List Char → Bool
  | [] => pat.isPrefixOf []
  | c :: rest => pat.isPrefixOf (c :: rest) || containsSub pat rest

/-- Worker for `splitD`: scans the text left to right; `skip` counts the
characters of a just-recognized delimiter occurrence still to be consumed,
and `acc` holds the reversed characters of the fragment being built. -/
def splitGo (n : Nat) (test : List Char → Bool) : List Char → Nat → List Char → List (List Char)
  | [], _, acc => [acc.reverse]
  | _ :: rest, skip + 1, acc => splitGo n test rest skip acc
  | c :: rest, 0, acc =>
    if 0 < n && test (c :: rest) then
      acc.reverse :: splitGo n test rest (n - 1) []
    else
      splitGo n test rest 0 (c :: acc)

/-- Leftmost, non-overlapping split of a text at delimiter occurrences.
`n` is the width of one occurrence and `test` recognizes an occurrence
starting at the head of the remaining text.  This embeds both Python's
`str.split(sep)` (with `test` a prefix test) and `re.split` on a
fixed-width literal pattern. -/
def splitD (n : Nat) (test : List Char → Bool) (l : List Char) : List (List Char) :=
  splitGo n test l 0 []

def pageMarker : List Char := "<page>".toList

def dashSep : List Char := "---".toList

/-- Does a case-insensitive occurrence of `<page>` start at the head of `l`? -/
def ciPageTest (l : List Char) : Bool :=
  (l.take 6).map lowerAscii == pageMarker

/-- `re.split(r'<page>', t, flags=re.IGNORECASE)`. -/
def splitPageCI (l : List Char) : List (List Char) :=
  splitD 6 ciPageTest l

/-- Python `t.split("---")`. -/
def splitDash (l : List Char) : List (List Char) :=
  splitD 3 (fun l => dashSep.isPrefixOf l) l

/-- The delimiter split of `_parse_outline` (lines 70–76): if the literal
lowercase `<page>` occurs anywhere in the text (a case-sensitive membership
test), split case-insensitively on the marker; otherwise split on the
legacy `---` delimiter. -/
def pagesRaw (t : List Char) : List (List Char) :=
  if containsSub pageMarker t then splitPageCI t else splitDash t

/-- Index of the last occurrence of `c` in `l`, if any. -/
def lastIdxOf (c : Char) : List Char → Option Nat
  | [] => none
  | x :: xs =>
    match lastIdxOf c xs with
    | some k => some (k + 1)
    | none => if x = c then some 0 else none

/-- The group captured by Python's `re.match(r"\[(\S+)\]", s)`: the string
must start with `[`; the greedy `\S+` followed by `]` captures the
characters strictly between the opening `[` and the last `]` inside the
maximal non-whitespace run after it; the capture must be non-empty. -/
def tagToken (s : List Char) : Option (List Char) :=
  match s with
  | '[' :: rest =>
    let run := rest.takeWhile (fun c => !isPySpace c)
    match lastIdxOf ']' run with
    | some k => if 1 ≤ k then some (run.take k) else none
    | none => none
  | _ => none

/-- The `type_mapping` dict of `_parse_outline`. -/
def typeTable : List (List Char × String) :=
  [("封面".toList, "cover"), ("内容".toList, "content"), ("总结".toList, "summary")]

/-- Association-list lookup, modelling `dict.get` on `type_mapping`. -/
def lookupTok (tok : List Char) : List (List Char × String) → Option String
  | [] => none
  | (k, v) :: rest => if tok = k then some v else lookupTok tok rest

/-- Page type assignment of `_parse_outline` (lines 85–94):
`type_mapping.get(type_cn, "content")` applied to the captured tag token,
defaulting to `content` when no tag matches. -/
def pageTypeOf (s : List Char) : String :=
  match tagToken s with
  | none => "content"
  | some tok => (lookupTok tok typeTable).getD "content"

structure Page where
  index : Nat
  type : String
  content : List Char
deriving DecidableEq, Repr

/-- `OutlineService._parse_outline`: split the text, enumerate the raw
fragments, strip each, drop the empty ones, and build the page records. -/
def parse_outline (t : List Char) : List Page :=
  (pagesRaw t).enum.filterMap fun p =>
    let s := strip p.2
    if s = [] then none
    else some { index := p.1, type := pageTypeOf s, content := s }

structure ProviderEntry where
  ptype : Option String := none
  model : Option String := none
  temperature : Option Rat := none
  max_output_tokens : Option Nat := none
deriving DecidableEq, Repr

structure TextConfig where
  active_provider : Option String := none
  providers : Option (List (String × ProviderEntry)) := none
deriving DecidableEq, Repr

/-- The hard-coded `default_config` of `_load_text_config`. -/
def default_config : TextConfig :=
  { active_provider := some "google_gemini"
    providers := some [("google_gemini",
      { ptype := some "google_gemini"
        model := some "gemini-2.0-flash-exp"
        temperature := some 1
        max_output_tokens := some 65535 })] }

/-- `OutlineService._load_text_config`: the external YAML file is modelled
as an optional already-parsed configuration (file I/O and YAML parsing are
external collaborators); when no file is found the default configuration
is returned. -/
def load_text_config (file : Option TextConfig) : TextConfig :=
  match file with
  | some c => c
  | none => default_config

/-- Association-list lookup modelling `providers.get(active_provider, ...)`. -/
def lookupProvider (k : String) : List (String × ProviderEntry) → Option ProviderEntry
  | [] => none
  | (k', v) :: rest => if k' = k then some v else lookupProvider k rest

/-- The `{}` a missing provider entry defaults to. -/
def emptyEntry : ProviderEntry := {}

/-- `providers.get(active_provider, {})` with
`active_provider = config.get('active_provider', 'google_gemini')` and
`providers = config.get('providers', {})` (lines 116–118). -/
def activeEntry (c : TextConfig) : ProviderEntry :=
  (lookupProvider (c.active_provider.getD "google_gemini") (c.providers.getD [])).getD emptyEntry

/-- `provider_config.get('model', 'gemini-2.0-flash-exp')`. -/
def resolvedModel (c : TextConfig) : String :=
  (activeEntry c).model.getD "gemini-2.0-flash-exp"

/-- `provider_config.get('temperature', 1.0)`. -/
def resolvedTemperature (c : TextConfig) : Rat :=
  (activeEntry c).temperature.getD 1

/-- `provider_config.get('max_output_tokens', 65535)`. -/
def resolvedMaxTokens (c : TextConfig) : Nat :=
  (activeEntry c).max_output_tokens.getD 65535

/-- An image blob (its bytes; the content is never inspected here). -/
abbrev Image := List Nat

def placeholder : List Char := "{topic}".toList

/-- Worker for `substTopic`; `skip` counts placeholder characters still to
be consumed after a match. -/
def substGo (topic : List Char) : List Char → Nat → List Char
  | [], _ => []
  | _ :: rest, skip + 1 => substGo topic rest skip
  | c :: rest, 0 =>
    if placeholder.isPrefixOf (c :: rest) then
      topic ++ substGo topic rest 6
    else
      c :: substGo topic rest 0

/-- `self.prompt_template.format(topic=topic)`: substitution of the
`{topic}` placeholder occurrences by the topic. -/
def substTopic (topic : List Char) (l : List Char) : List Char :=
  substGo topic l 0

/-- The image-count advisory sentence appended to the prompt when images
are supplied (line 120). -/
def advisory (n : Nat) : List Char :=
  ("\n\n注意：用户提供了 " ++ toString n ++ " 张参考图片，请在生成大纲时考虑这些图片的内容和风格。这些图片可能是产品图、个人照片或场景图，请根据图片内容来优化大纲，使生成的内容与图片相关联。").toList

/-- Prompt composition of `generate_outline` (lines 117–120): substitute
the topic; when the image list is present and non-empty, append the
advisory sentence. -/
def composePrompt (template topic : List Char) (images : Option (List Image)) : List Char :=
  let p := substTopic topic template
  match images with
  | some l => if 0 < l.length then p ++ advisory l.length else p
  | none => p

/-- `images is not None and len(images) > 0` (line 139). -/
def hasImagesOf (images : Option (List Image)) : Bool :=
  match images with
  | some l => decide (0 < l.length)
  | none => false

/-- The external text-generation client: prompt, model, temperature,
max output tokens and the optional image list, producing the outline text. -/
abbrev TextClient := List Char → String → Rat → Nat → Option (List Image) → List Char

structure GenResult where
  success : Bool
  outline : List Char
  pages : List Page
  has_images : Bool
deriving DecidableEq, Repr

/-- `OutlineService.generate_outline`, with the prompt template, the loaded
configuration and the external client as parameters. -/
def generate_outline (template : List Char) (cfg : TextConfig) (client : TextClient)
    (topic : List Char) (images : Option (List Image)) : GenResult :=
  let prompt := composePrompt template topic images
  let text := client prompt (resolvedModel cfg) (resolvedTemperature cfg)
    (resolvedMaxTokens cfg) images
  { success := true
    outline := text
    pages := parse_outline text
    has_images := hasImagesOf images }

/-- Spec-side restatement of the tag mapping, following the spec's words:
`封面` → `cover`, `内容` → `content`, `总结` → `summary`, any other token or
the absence of a tag → `content`. -/
def specTypeOf (tok : Option (List Char)) : String :=
  match tok with
  | none => "content"
  | some tk =>
    if tk = "封面".toList then "cover"
    else if tk = "内容".toList then "content"
    else if tk = "总结".toList then "summary"
    else "content"

/-! ### Helper lemmas -/

/-- `containsSub` finds the pattern exactly when some suffix of the text
starts with it. -/
theorem containsSub_iff (pat l : List Char) :
    containsSub pat l = true ↔ ∃ s, s <:+ l ∧ pat.isPrefixOf s = true := by
  induction l with
  | nil => simp [containsSub]
  | cons c rest ih =>
    simp only [containsSub, Bool.or_eq_true, ih]
    constructor
    · rintro (h | ⟨s, hs, hp⟩)
      · exact ⟨c :: rest, List.suffix_refl _, h⟩
      · exact ⟨s, hs.trans (List.suffix_cons c rest), hp⟩
    · rintro ⟨s, hs, hp⟩
      rcases List.suffix_cons_iff.mp hs with h | h
      · subst h; exact Or.inl hp
      · exact Or.inr ⟨s, h, hp⟩

/-- When no delimiter occurrence starts anywhere in the remaining text,
the splitter returns the single fragment made of the accumulator and the
rest of the text. -/
theorem splitGo_no_match (n : Nat) (test : List Char → Bool) (l acc : List Char)
    (h : ∀ s, s <:+ l → s ≠ [] → test s = false) :
    splitGo n test l 0 acc = [acc.reverse ++ l] := by
  induction l generalizing acc with
  | nil => simp [splitGo]
  | cons c rest ih =>
    have ht : test (c :: rest) = false := h _ (List.suffix_refl _) (by simp)
    rw [splitGo, ht]
    simp only [Bool.and_false, Bool.false_eq_true, if_false]
    rw [ih (c :: acc) fun s hs hne => h s (hs.trans (List.suffix_cons c rest)) hne]
    simp

/-- Splitting on `---` a text that does not contain `---` yields the text
as the unique fragment. -/
theorem splitDash_of_not_contains (l : List Char) (h : containsSub dashSep l = false) :
    splitDash l = [l] := by
  unfold splitDash splitD
  rw [splitGo_no_match]
  · simp
  · intro s hs _
    cases hb : dashSep.isPrefixOf s with
    | false => rfl
    | true =>
      have : containsSub dashSep l = true := (containsSub_iff dashSep l).mpr ⟨s, hs, hb⟩
      rw [h] at this
      cases this

/-- When the lowercase marker is absent, `pagesRaw` is the `---` split. -/
theorem pagesRaw_of_not_contains (t : List Char) (h : containsSub pageMarker t = false) :
    pagesRaw t = splitDash t := by
  simp [pagesRaw, h]

/-- A fully blank text consists of whitespace characters only. -/
theorem strip_eq_nil_imp (t : List Char) (h : strip t = []) :
    ∀ c ∈ t, isPySpace c = true := by
  unfold strip at h
  rw [List.reverse_eq_nil_iff, List.dropWhile_eq_nil_iff] at h
  intro c hc
  rcases List.mem_append.mp (by rw [List.takeWhile_append_dropWhile (p := isPySpace) (l := t)]; exact hc) with hm | hm
  · exact List.mem_takeWhile_imp hm
  · exact h c (List.mem_reverse.mpr hm)

/-- A text of whitespace characters only cannot contain a pattern that has
a non-whitespace character. -/
theorem all_space_not_contains (t pat : List Char) (c : Char)
    (hc : c ∈ pat) (hcs : isPySpace c = false)
    (h : ∀ x ∈ t, isPySpace x = true) : containsSub pat t = false := by
  cases hb : containsSub pat t with
  | false => rfl
  | true =>
    obtain ⟨s, hs, hp⟩ := (containsSub_iff pat t).mp hb
    have hct : c ∈ t := hs.subset ((List.isPrefixOf_iff_prefix.mp hp).subset hc)
    rw [h c hct] at hcs
    cases hcs

/-- The case-sensitive membership test is monotone under ASCII lowering:
an actual lowercase occurrence survives the lowering of the text. -/
theorem containsSub_map_lower (t : List Char)
    (h : containsSub pageMarker (t.map lowerAscii) = false) :
    containsSub pageMarker t = false := by
  cases hb : containsSub pageMarker t with
  | false => rfl
  | true =>
    obtain ⟨s, hs, hp⟩ := (containsSub_iff pageMarker t).mp hb
    have hmap : (pageMarker.map lowerAscii).isPrefixOf (s.map lowerAscii) = true :=
      List.isPrefixOf_iff_prefix.mpr ((List.isPrefixOf_iff_prefix.mp hp).map lowerAscii)
    have hlow : pageMarker.map lowerAscii = pageMarker := by decide
    rw [hlow] at hmap
    have : containsSub pageMarker (t.map lowerAscii) = true :=
      (containsSub_iff _ _).mpr ⟨s.map lowerAscii, hs.map lowerAscii, hmap⟩
    rw [h] at this
    cases this

/-- Parsing a text whose raw split is a single fragment. -/
theorem parse_single_fragment (t : List Char) (h : pagesRaw t = [t]) :
    parse_outline t =
      if strip t = [] then []
      else [{ index := 0, type := pageTypeOf (strip t), content := strip t }] := by
  unfold parse_outline
  rw [h]
  by_cases hs : strip t = [] <;> simp [List.enum, List.filterMap, hs]

/-- `filterMap` with an if-shaped function is a filter followed by a map. -/
theorem filterMap_ite {α β : Type} (f : α → Option β) (q : α → Bool) (g : α → β)
    (hf : ∀ a, f a = if q a then some (g a) else none) (l : List α) :
    l.filterMap f = (l.filter q).map g := by
  induction l with
  | nil => rfl
  | cons a rest ih =>
    rw [List.filterMap_cons, List.filter_cons, hf a]
    cases hq : q a <;> simp [hq, ih]

/-! ### Claims -/

/-- C1, counterexample: the delimiter detection of `_parse_outline` is the
case-sensitive membership test `'<page>' in outline_text`, so the text
`<PAGE>a<PAGE>b` — in which the marker occurs case-insensitively, and which
a case-insensitive occurrence split would cut into fragments `a` and `b` —
is not split on the marker at all: it falls through to the `---` split and
parses as one single page. -/
theorem C1_counterexample :
    parse_outline "<page>a<page>b".toList =
      [⟨1, "content", "a".toList⟩, ⟨2, "content", "b".toList⟩] ∧
    containsSub pageMarker ("<PAGE>a<PAGE>b".toList.map lowerAscii) = true ∧
    splitPageCI "<PAGE>a<PAGE>b".toList = [[], "a".toList, "b".toList] ∧
    pagesRaw "<PAGE>a<PAGE>b".toList = ["<PAGE>a<PAGE>b".toList] ∧
    parse_outline "<PAGE>a<PAGE>b".toList =
      [⟨0, "content", "<PAGE>a<PAGE>b".toList⟩] := by decide

/-- C1 (amended): the page delimiter is determined by a case-sensitive
membership test for the lowercase literal `<page>`: when that literal
occurs anywhere in the text, the text is split on every case-insensitive
occurrence of the marker; otherwise the text is split on the legacy
delimiter `---`. -/
theorem C1_delimiter_selection (t : List Char) :
    (containsSub pageMarker t = true → pagesRaw t = splitPageCI t) ∧
    (containsSub pageMarker t = false → pagesRaw t = splitDash t) := by
  constructor <;> intro h <;> simp [pagesRaw, h]

/-- C1, witness for the amended statement at two concrete texts. -/
theorem C1_delimiter_selection_witness :
    pagesRaw "<page>a".toList = splitPageCI "<page>a".toList ∧
    pagesRaw "x---y".toList = splitDash "x---y".toList :=
  ⟨(C1_delimiter_selection _).1 (by decide), (C1_delimiter_selection _).2 (by decide)⟩

/-- C2: the parsed pages are exactly the fragments of the delimiter split
that are non-empty after trimming, in order of appearance, each indexed by
its enumeration position in the original pre-filter split list; the text
`<page>\n\n<page>Intro<page>\n  \n<page>End` yields exactly the two pages
`Intro` and `End` (with the gapped indices 2 and 4). -/
theorem C2_page_enumeration :
    (∀ t : List Char, parse_outline t =
      ((pagesRaw t).enum.filter fun p => decide (strip p.2 ≠ [])).map
        fun p => { index := p.1, type := pageTypeOf (strip p.2), content := strip p.2 }) ∧
    parse_outline "<page>\n\n<page>Intro<page>\n  \n<page>End".toList =
      [⟨2, "content", "Intro".toList⟩, ⟨4, "content", "End".toList⟩] := by
  constructor
  · intro t
    apply filterMap_ite
    intro a
    by_cases h : strip a.2 = [] <;> simp [h]
  · decide

/-- C3: the page type of a trimmed fragment is determined by the leading
`[<token>]` tag: token `封面` gives `cover`, `内容` gives `content`, `总结`
gives `summary`, and any other token or the absence of a tag gives
`content` — the code's table lookup agrees with the spec's case analysis
on every fragment, and on the spec's four sample fragments. -/
theorem C3_tag_mapping :
    (∀ s : List Char, pageTypeOf s = specTypeOf (tagToken s)) ∧
    pageTypeOf "[封面] Title".toList = "cover" ∧
    pageTypeOf "[内容] Body".toList = "content" ∧
    pageTypeOf "[总结] End".toList = "summary" ∧
    pageTypeOf "[未知] X".toList = "content" ∧
    pageTypeOf "Plain".toList = "content" := by
  refine ⟨fun s => ?_, by decide, by decide, by decide, by decide, by decide⟩
  unfold pageTypeOf specTypeOf
  cases tagToken s with
  | none => rfl
  | some tok =>
    simp only [typeTable, lookupTok]
    split_ifs <;> rfl

/-- C4: every parsed page's `content` is the full trimmed text of the raw
fragment sitting at the page's index in the pre-filter split list — the
leading tag, when present, is part of it and is never stripped out. -/
theorem C4_content_is_trimmed_fragment (t : List Char) (p : Page)
    (hp : p ∈ parse_outline t) :
    ((pagesRaw t)[p.index]?).map strip = some p.content ∧ p.content ≠ [] := by
  obtain ⟨a, ha, hfa⟩ := List.mem_filterMap.mp hp
  by_cases h : strip a.2 = []
  · simp [h] at hfa
  · simp only [h, if_neg] at hfa
    obtain rfl := (Option.some.inj hfa).symm
    refine ⟨?_, h⟩
    rw [List.mem_enum_iff_getElem?.mp ha]
    rfl

/-- C4, witness: the page parsed from `[封面] T` carries the whole trimmed
fragment, tag included, as its content. -/
theorem C4_content_witness :
    ((pagesRaw "[封面] T".toList)[(0 : Nat)]?).map strip = some "[封面] T".toList ∧
    "[封面] T".toList ≠ ([] : List Char) :=
  C4_content_is_trimmed_fragment "[封面] T".toList ⟨0, "cover", "[封面] T".toList⟩ (by decide)

/-- C5: with no external configuration file, the loaded configuration is
exactly the documented default: active provider `google_gemini`, model
`gemini-2.0-flash-exp`, temperature `1.0`, max output tokens `65535`. -/
theorem C5_default_configuration :
    load_text_config none = default_config ∧
    (load_text_config none).active_provider = some "google_gemini" ∧
    activeEntry (load_text_config none) =
      { ptype := some "google_gemini", model := some "gemini-2.0-flash-exp",
        temperature := some 1, max_output_tokens := some 65535 } ∧
    resolvedModel (load_text_config none) = "gemini-2.0-flash-exp" ∧
    resolvedTemperature (load_text_config none) = 1 ∧
    resolvedMaxTokens (load_text_config none) = 65535 :=
  ⟨rfl, rfl, rfl, rfl, rfl, rfl⟩

/-- C6: when the supplied image list is non-empty, the result has
`has_images` true and the client receives the topic-substituted template
with the image-count advisory appended; when images are absent or empty,
`has_images` is false and the client receives the bare topic-substituted
template. -/
theorem C6_images_advisory (template : List Char) (cfg : TextConfig) (client : TextClient)
    (topic : List Char) (images : Option (List Image)) :
    (∀ l, images = some l → l ≠ [] →
      (generate_outline template cfg client topic images).has_images = true ∧
      (generate_outline template cfg client topic images).outline =
        client (substTopic topic template ++ advisory l.length)
          (resolvedModel cfg) (resolvedTemperature cfg) (resolvedMaxTokens cfg) images) ∧
    ((images = none ∨ images = some []) →
      (generate_outline template cfg client topic images).has_images = false ∧
      (generate_outline template cfg client topic images).outline =
        client (substTopic topic template)
          (resolvedModel cfg) (resolvedTemperature cfg) (resolvedMaxTokens cfg) images) := by
  constructor
  · rintro l rfl hl
    have hpos : 0 < l.length := List.length_pos.mpr hl
    constructor
    · simp [generate_outline, hasImagesOf, hpos]
    · simp [generate_outline, composePrompt, hpos]
  · rintro (rfl | rfl) <;>
      exact ⟨by simp [generate_outline, hasImagesOf],
        by simp [generate_outline, composePrompt]⟩

/-- C6, witness: one generation with a single image and one without, under
a client that ignores its arguments. -/
theorem C6_images_advisory_witness :
    ((generate_outline [] default_config (fun _ _ _ _ _ => []) [] (some [[0]])).has_images = true ∧
      (generate_outline [] default_config (fun _ _ _ _ _ => []) [] (some [[0]])).outline = []) ∧
    ((generate_outline [] default_config (fun _ _ _ _ _ => []) [] none).has_images = false ∧
      (generate_outline [] default_config (fun _ _ _ _ _ => []) [] none).outline = []) :=
  ⟨(C6_images_advisory [] default_config (fun _ _ _ _ _ => []) [] (some [[0]])).1
      [[0]] rfl (by decide),
    (C6_images_advisory [] default_config (fun _ _ _ _ _ => []) [] none).2 (Or.inl rfl)⟩

/-- C7, counterexample: `[总结] End` has no `<page>` marker (even
case-insensitively), no `---`, and is non-empty after trimming, yet it
parses as a single page of type `summary` — not as a `content` page as the
claim states, because the tag detection still applies to the fallback
single fragment. -/
theorem C7_counterexample :
    containsSub pageMarker ("[总结] End".toList.map lowerAscii) = false ∧
    containsSub dashSep "[总结] End".toList = false ∧
    strip "[总结] End".toList ≠ [] ∧
    parse_outline "[总结] End".toList = [⟨0, "summary", "[总结] End".toList⟩] ∧
    (⟨0, "summary", "[总结] End".toList⟩ : Page).type ≠ "content" := by decide

/-- C7 (amended): parsing is total (the embedding is a total function);
when the text contains no case-insensitive `<page>` marker and no `---`
and is non-empty after trimming, the result is a single-page outline whose
page content is the whole trimmed text, with the page type determined from
the leading tag as usual (`content` when no recognized tag is present). -/
theorem C7_no_delimiter_single_page (t : List Char)
    (h1 : containsSub pageMarker (t.map lowerAscii) = false)
    (h2 : containsSub dashSep t = false)
    (h3 : strip t ≠ []) :
    parse_outline t = [{ index := 0, type := pageTypeOf (strip t), content := strip t }] := by
  have hcs := containsSub_map_lower t h1
  have hsingle : pagesRaw t = [t] := by
    rw [pagesRaw_of_not_contains t hcs, splitDash_of_not_contains t h2]
  rw [parse_single_fragment t hsingle, if_neg h3]

/-- C7, witness: a delimiter-free text parses as one page. -/
theorem C7_single_page_witness :
    parse_outline "Solo page".toList = [⟨0, "content", "Solo page".toList⟩] :=
  C7_no_delimiter_single_page "Solo page".toList (by decide) (by decide) (by decide)

/-- C8: parsing is deterministic — it is a pure function of the input text
alone, so parsing the same raw text twice yields identical page
sequences. -/
theorem C8_parse_deterministic : ∀ t : List Char, parse_outline t = parse_outline t :=
  fun _ => rfl

/-- C9: model, temperature and max output tokens are resolved from the
active provider's entry with an independent per-field fallback: a present
key is used as given, an absent key falls back to its default, and a
missing provider entry resolves to the empty entry (hence all
defaults). -/
theorem C9_per_field_fallback (c : TextConfig) :
    ((activeEntry c).model = none → resolvedModel c = "gemini-2.0-flash-exp") ∧
    (∀ m, (activeEntry c).model = some m → resolvedModel c = m) ∧
    ((activeEntry c).temperature = none → resolvedTemperature c = 1) ∧
    (∀ x, (activeEntry c).temperature = some x → resolvedTemperature c = x) ∧
    ((activeEntry c).max_output_tokens = none → resolvedMaxTokens c = 65535) ∧
    (∀ x, (activeEntry c).max_output_tokens = some x → resolvedMaxTokens c = x) ∧
    (lookupProvider (c.active_provider.getD "google_gemini") (c.providers.getD []) = none →
      activeEntry c = emptyEntry) := by
  refine ⟨fun h => ?_, fun m h => ?_, fun h => ?_, fun x h => ?_, fun h => ?_,
    fun x h => ?_, fun h => ?_⟩
  · simp [resolvedModel, h]
  · simp [resolvedModel, h]
  · simp [resolvedTemperature, h]
  · simp [resolvedTemperature, h]
  · simp [resolvedMaxTokens, h]
  · simp [resolvedMaxTokens, h]
  · simp [activeEntry, h]

/-- C9, witness: a provider entry carrying only a temperature resolves
that temperature as given and falls back on the other two fields; a
configuration without any matching provider entry resolves to the empty
entry. -/
theorem C9_per_field_fallback_witness :
    resolvedModel { active_provider := some "p",
                    providers := some [("p", { temperature := some 2 })] } =
      "gemini-2.0-flash-exp" ∧
    resolvedTemperature { active_provider := some "p",
                          providers := some [("p", { temperature := some 2 })] } = 2 ∧
    resolvedMaxTokens { active_provider := some "p",
                        providers := some [("p", { temperature := some 2 })] } = 65535 ∧
    activeEntry { active_provider := none, providers := none } = emptyEntry :=
  ⟨(C9_per_field_fallback _).1 rfl,
    (C9_per_field_fallback _).2.2.2.1 2 rfl,
    (C9_per_field_fallback _).2.2.2.2.1 rfl,
    (C9_per_field_fallback _).2.2.2.2.2.2 rfl⟩

/-- C10: a raw text that is empty or whitespace-only parses to zero pages,
and a generation whose client returns such a text succeeds with the raw
text as outline and an empty page sequence. -/
theorem C10_blank_outline (template : List Char) (cfg : TextConfig) (topic : List Char)
    (images : Option (List Image)) (t : List Char) (h : strip t = []) :
    parse_outline t = [] ∧
    (generate_outline template cfg (fun _ _ _ _ _ => t) topic images).success = true ∧
    (generate_outline template cfg (fun _ _ _ _ _ => t) topic images).outline = t ∧
    (generate_outline template cfg (fun _ _ _ _ _ => t) topic images).pages = [] := by
  have hsp := strip_eq_nil_imp t h
  have hpm : containsSub pageMarker t = false :=
    all_space_not_contains t pageMarker '<' (by decide) (by decide) hsp
  have hds : containsSub dashSep t = false :=
    all_space_not_contains t dashSep '-' (by decide) (by decide) hsp
  have hsingle : pagesRaw t = [t] := by
    rw [pagesRaw_of_not_contains t hpm, splitDash_of_not_contains t hds]
  have hparse : parse_outline t = [] := by
    rw [parse_single_fragment t hsingle, if_pos h]
  exact ⟨hparse, rfl, rfl, hparse⟩

/-- C10, witness: a whitespace-only client response yields a successful
result with zero pages. -/
theorem C10_blank_outline_witness :
    parse_outline " \n \t ".toList = [] ∧
    (generate_outline [] default_config (fun _ _ _ _ _ => " \n \t ".toList) [] none).success = true ∧
    (generate_outline [] default_config (fun _ _ _ _ _ => " \n \t ".toList) [] none).outline =
      " \n \t ".toList ∧
    (generate_outline [] default_config (fun _ _ _ _ _ => " \n \t ".toList) [] none).pages = [] :=
  C10_blank_outline [] default_config [] none " \n \t ".toList (by decide)

end RedInk
